import Mathlib

/-!
Shallow embedding of the `name_maker` crate (src/name_generator.rs) and
verification of its specification.

Randomness is modelled as an explicit stream `σ : Nat → Nat` of raw draws
together with a position counter `k`: each primitive draw (`rand::random::<bool>()`
for gender, `rand::thread_rng().gen_range(0..len)` for an index) consumes exactly
one stream value.  A `gen_range` call on an empty range and an `unwrap` on a
failed bank lookup are Rust panics; they are modelled by `none`, so every
fallible operation returns an `Option`.  The `Option<Vec<RandomName>>` that
`generate_many` and `generate_many_specific` return in Rust appears as the inner
`Option (List RandomName)` of their results.

The three word lists are not part of the sources (they are `include_str!` data
files); `RandomNameGenerator.init` is therefore parameterised by the three lists
of raw lines, exactly as the loader hands them to the constructor loops, which
push the trimmed form of every line.  `rust_trim` models `str::trim`
(remove leading and trailing whitespace) as a computable function.
-/

namespace NameMaker

/-- Gender tag: determines whether a first name is drawn from the masculine or
feminine bank (embeds `enum Gender`). -/
inductive Gender where
  | Male : Gender
  | Female : Gender
deriving DecidableEq, Repr

/-- A list of names of one kind plus its stored length (embeds `struct NameBank`,
whose `bank` and `len` are separate fields). -/
structure NameBank where
  bank : List String
  len : Nat
deriving DecidableEq, Repr

/-- The generated name value (embeds `struct RandomName`). -/
structure RandomName where
  first_name : String
  last_name : String
deriving DecidableEq, Repr

/-- Rendering of a name (embeds `impl fmt::Display for RandomName`):
`write!(f, "{} {}", self.first_name, self.last_name)`. -/
def RandomName.display (n : RandomName) : String :=
  n.first_name ++ " " ++ n.last_name

/-- The generator and its three banks (embeds `struct RandomNameGenerator`). -/
structure RandomNameGenerator where
  male_first_names : NameBank
  female_first_names : NameBank
  last_names : NameBank
deriving DecidableEq, Repr

/-- The stream of raw random values consumed by the generator. -/
abbrev RandStream := Nat → Nat

/-- Model of Rust `str::trim`: drop leading and trailing whitespace characters. -/
def rust_trim (s : String) : String :=
  String.mk (((s.data.dropWhile Char.isWhitespace).reverse.dropWhile
    Char.isWhitespace).reverse)

namespace RandomNameGenerator

/-- One constructor loop of `init`: push the trimmed form of every raw line,
then record the bank's length in `len`. -/
def mkBank (lines : List String) : NameBank :=
  let b := lines.map rust_trim
  { bank := b, len := b.length }

/-- Embeds `RandomNameGenerator::init`, parameterised by the raw lines of the
three `include_str!` word lists. -/
def init (male_lines female_lines last_lines : List String) : RandomNameGenerator :=
  { male_first_names := mkBank male_lines
    female_first_names := mkBank female_lines
    last_names := mkBank last_lines }

/-- Embeds `get_random_gender`: `if rand::random() { Male } else { Female }`,
with the raw draw `r` decoding to the boolean `r % 2 = 1`. -/
def get_random_gender (r : Nat) : Gender :=
  if r % 2 = 1 then Gender.Male else Gender.Female

/-- Embeds `get_rand_index`: `thread_rng().gen_range(0..len)`, which panics
(`none`) when the range is empty and otherwise yields an index below `len`
(the raw draw reduced mod `len`). -/
def get_rand_index (len r : Nat) : Option Nat :=
  if len = 0 then none else some (r % len)

/-- Embeds `generate_first_name_specific`: draw an index into the bank selected
by `gender` and look the name up (`.get(index).unwrap()`). -/
def generate_first_name_specific (g : RandomNameGenerator) (gender : Gender)
    (σ : RandStream) (k : Nat) : Option (String × Nat) :=
  match gender with
  | Gender.Male =>
    match get_rand_index g.male_first_names.len (σ k) with
    | none => none
    | some index =>
      match g.male_first_names.bank[index]? with
      | none => none
      | some s => some (s, k + 1)
  | Gender.Female =>
    match get_rand_index g.female_first_names.len (σ k) with
    | none => none
    | some index =>
      match g.female_first_names.bank[index]? with
      | none => none
      | some s => some (s, k + 1)

/-- Embeds `generate_last_name`: draw an index into the surname bank and look
the name up (`.get(index).unwrap()`). -/
def generate_last_name (g : RandomNameGenerator) (σ : RandStream) (k : Nat) :
    Option (String × Nat) :=
  match get_rand_index g.last_names.len (σ k) with
  | none => none
  | some index =>
    match g.last_names.bank[index]? with
    | none => none
    | some s => some (s, k + 1)

/-- Embeds `generate_specific`: a first name for the given gender, then a last
name, paired into a `RandomName`. -/
def generate_specific (g : RandomNameGenerator) (gender : Gender)
    (σ : RandStream) (k : Nat) : Option (RandomName × Nat) :=
  match generate_first_name_specific g gender σ k with
  | none => none
  | some (fn, k1) =>
    match generate_last_name g σ k1 with
    | none => none
    | some (ln, k2) => some ({ first_name := fn, last_name := ln }, k2)

/-- Embeds `generate`: draw a random gender, then `generate_specific`. -/
def generate (g : RandomNameGenerator) (σ : RandStream) (k : Nat) :
    Option (RandomName × Nat) :=
  generate_specific g (get_random_gender (σ k)) σ (k + 1)

/-- The `for _ in 0..amount` loop of `generate_many`, pushing one `generate`
result per iteration. -/
def generate_many_loop (g : RandomNameGenerator) (amount : Nat)
    (σ : RandStream) (k : Nat) : Option (List RandomName × Nat) :=
  match amount with
  | 0 => some ([], k)
  | n + 1 =>
    match generate g σ k with
    | none => none
    | some (nm, k1) =>
      match generate_many_loop g n σ k1 with
      | none => none
      | some (rest, k2) => some (nm :: rest, k2)

/-- Embeds `generate_many`: `None` when `amount == 0`, otherwise `amount`
results of `generate` in call order. -/
def generate_many (g : RandomNameGenerator) (amount : Nat)
    (σ : RandStream) (k : Nat) : Option (Option (List RandomName) × Nat) :=
  if amount = 0 then some (none, k)
  else
    match generate_many_loop g amount σ k with
    | none => none
    | some (l, k1) => some (some l, k1)

/-- One `for` loop of `generate_many_specific`, pushing one
`generate_specific gender` result per iteration. -/
def generate_specific_loop (g : RandomNameGenerator) (gender : Gender)
    (amount : Nat) (σ : RandStream) (k : Nat) : Option (List RandomName × Nat) :=
  match amount with
  | 0 => some ([], k)
  | n + 1 =>
    match generate_specific g gender σ k with
    | none => none
    | some (nm, k1) =>
      match generate_specific_loop g gender n σ k1 with
      | none => none
      | some (rest, k2) => some (nm :: rest, k2)

/-- Embeds `generate_many_specific`: `None` when both amounts are zero,
otherwise the male loop followed by the female loop. -/
def generate_many_specific (g : RandomNameGenerator)
    (male_amount female_amount : Nat) (σ : RandStream) (k : Nat) :
    Option (Option (List RandomName) × Nat) :=
  if male_amount = 0 ∧ female_amount = 0 then some (none, k)
  else
    match generate_specific_loop g Gender.Male male_amount σ k with
    | none => none
    | some (males, k1) =>
      match generate_specific_loop g Gender.Female female_amount σ k1 with
      | none => none
      | some (females, k2) => some (some (males ++ females), k2)

/-- Embeds `generate_family_member`: a fresh first name for the given gender,
with the already-drawn family surname. -/
def generate_family_member (g : RandomNameGenerator) (family_last_name : String)
    (gender : Gender) (σ : RandStream) (k : Nat) : Option (RandomName × Nat) :=
  match generate_first_name_specific g gender σ k with
  | none => none
  | some (fn, k1) =>
    some ({ first_name := fn, last_name := family_last_name }, k1)

/-- A `for` loop pushing `generate_family_member` results (the children loops
of `generate_family` and `generate_family_specific`). -/
def family_children_loop (g : RandomNameGenerator) (family_last_name : String)
    (gender : Gender) (amount : Nat) (σ : RandStream) (k : Nat) :
    Option (List RandomName × Nat) :=
  match amount with
  | 0 => some ([], k)
  | n + 1 =>
    match generate_family_member g family_last_name gender σ k with
    | none => none
    | some (nm, k1) =>
      match family_children_loop g family_last_name gender n σ k1 with
      | none => none
      | some (rest, k2) => some (nm :: rest, k2)

/-- Embeds `generate_family`: one shared surname, a Male father, a Female
mother, then `children_amount` children each with `gender = Gender::Male`. -/
def generate_family (g : RandomNameGenerator) (children_amount : Nat)
    (σ : RandStream) (k : Nat) : Option (List RandomName × Nat) :=
  match generate_last_name g σ k with
  | none => none
  | some (family_last_name, k1) =>
    match generate_family_member g family_last_name Gender.Male σ k1 with
    | none => none
    | some (father, k2) =>
      match generate_family_member g family_last_name Gender.Female σ k2 with
      | none => none
      | some (mother, k3) =>
        match family_children_loop g family_last_name Gender.Male
            children_amount σ k3 with
        | none => none
        | some (children, k4) => some (father :: mother :: children, k4)

/-- Embeds `generate_family_specific`: shared surname, father, mother, the male
children loop, then the female children loop. -/
def generate_family_specific (g : RandomNameGenerator)
    (male_children_amount female_children_amount : Nat)
    (σ : RandStream) (k : Nat) : Option (List RandomName × Nat) :=
  match generate_last_name g σ k with
  | none => none
  | some (family_last_name, k1) =>
    match generate_family_member g family_last_name Gender.Male σ k1 with
    | none => none
    | some (father, k2) =>
      match generate_family_member g family_last_name Gender.Female σ k2 with
      | none => none
      | some (mother, k3) =>
        match family_children_loop g family_last_name Gender.Male
            male_children_amount σ k3 with
        | none => none
        | some (boys, k4) =>
          match family_children_loop g family_last_name Gender.Female
              female_children_amount σ k4 with
          | none => none
          | some (girls, k5) => some (father :: mother :: boys ++ girls, k5)

/-- Embeds `generate_default_name`: the fixed placeholder name. -/
def generate_default_name : RandomName :=
  { first_name := "John", last_name := "Doe" }

/-- The bank that `generate_first_name_specific` reads for a given gender. -/
def genderBank (g : RandomNameGenerator) (gender : Gender) : NameBank :=
  match gender with
  | Gender.Male => g.male_first_names
  | Gender.Female => g.female_first_names

end RandomNameGenerator

/-- A bank is well formed when its stored `len` matches the list and is
positive (the non-empty precondition of the spec). -/
def NameBank.Good (b : NameBank) : Prop :=
  b.len = b.bank.length ∧ 0 < b.len

instance (b : NameBank) : Decidable b.Good :=
  decidable_of_iff (b.len = b.bank.length ∧ 0 < b.len) Iff.rfl

/-- All three banks of a generator are well formed and non-empty. -/
def RandomNameGenerator.Good (g : RandomNameGenerator) : Prop :=
  g.male_first_names.Good ∧ g.female_first_names.Good ∧ g.last_names.Good

instance (g : RandomNameGenerator) : Decidable g.Good :=
  decidable_of_iff
    (g.male_first_names.Good ∧ g.female_first_names.Good ∧ g.last_names.Good)
    Iff.rfl

/-- A name whose components are bank members: the verbatim-membership
invariant of the spec. -/
def RandomNameGenerator.InBanks (g : RandomNameGenerator) (nm : RandomName) : Prop :=
  (nm.first_name ∈ g.male_first_names.bank ∨
    nm.first_name ∈ g.female_first_names.bank) ∧
  nm.last_name ∈ g.last_names.bank

/-- A small concrete generator used to instantiate proved theorems. -/
def testGen : RandomNameGenerator :=
  RandomNameGenerator.init ["Liam", "Noah"] ["Emma", "Olivia"] ["Smith", "Jones"]

/-- A concrete random stream used to instantiate proved theorems. -/
def idStream : RandStream := fun n => n

/-- A second concrete stream that agrees with `idStream` on positions below 10
and differs above, used to instantiate the determinism theorem. -/
def idStreamTail : RandStream := fun n => if n < 10 then n else n + 100

end NameMaker

namespace NameMaker

open RandomNameGenerator

lemma genderBank_good (g : RandomNameGenerator) (hg : g.Good) (gender : Gender) :
    (g.genderBank gender).Good := by
  cases gender with
  | Male => exact hg.1
  | Female => exact hg.2.1

lemma get_rand_index_good (len r : Nat) (h : 0 < len) :
    get_rand_index len r = some (r % len) ∧ r % len < len := by
  refine ⟨?_, Nat.mod_lt _ h⟩
  simp [get_rand_index, Nat.pos_iff_ne_zero.mp h]

lemma generate_first_name_specific_good (g : RandomNameGenerator)
    (gender : Gender) (σ : RandStream) (k : Nat) (hb : (g.genderBank gender).Good) :
    ∃ s, generate_first_name_specific g gender σ k = some (s, k + 1) ∧
      s ∈ (g.genderBank gender).bank := by
  obtain ⟨hlen, hpos⟩ := hb
  cases gender with
  | Male =>
    simp only [genderBank] at hlen hpos ⊢
    have hne : g.male_first_names.len ≠ 0 := Nat.pos_iff_ne_zero.mp hpos
    have hlt : σ k % g.male_first_names.len < g.male_first_names.bank.length := by
      rw [← hlen]; exact Nat.mod_lt _ hpos
    refine ⟨g.male_first_names.bank[σ k % g.male_first_names.len], ?_, List.getElem_mem hlt⟩
    simp [generate_first_name_specific, get_rand_index, hne,
      List.getElem?_eq_getElem hlt]
  | Female =>
    simp only [genderBank] at hlen hpos ⊢
    have hne : g.female_first_names.len ≠ 0 := Nat.pos_iff_ne_zero.mp hpos
    have hlt : σ k % g.female_first_names.len < g.female_first_names.bank.length := by
      rw [← hlen]; exact Nat.mod_lt _ hpos
    refine ⟨g.female_first_names.bank[σ k % g.female_first_names.len], ?_, List.getElem_mem hlt⟩
    simp [generate_first_name_specific, get_rand_index, hne,
      List.getElem?_eq_getElem hlt]

lemma generate_last_name_good (g : RandomNameGenerator) (σ : RandStream)
    (k : Nat) (hb : g.last_names.Good) :
    ∃ s, generate_last_name g σ k = some (s, k + 1) ∧ s ∈ g.last_names.bank := by
  obtain ⟨hlen, hpos⟩ := hb
  have hne : g.last_names.len ≠ 0 := Nat.pos_iff_ne_zero.mp hpos
  have hlt : σ k % g.last_names.len < g.last_names.bank.length := by
    rw [← hlen]; exact Nat.mod_lt _ hpos
  refine ⟨g.last_names.bank[σ k % g.last_names.len], ?_, List.getElem_mem hlt⟩
  simp [generate_last_name, get_rand_index, hne, List.getElem?_eq_getElem hlt]

lemma generate_specific_good (g : RandomNameGenerator) (gender : Gender)
    (σ : RandStream) (k : Nat) (hg : g.Good) :
    ∃ nm, generate_specific g gender σ k = some (nm, k + 2) ∧
      nm.first_name ∈ (g.genderBank gender).bank ∧
      nm.last_name ∈ g.last_names.bank := by
  obtain ⟨fn, hfn, hfnmem⟩ :=
    generate_first_name_specific_good g gender σ k (genderBank_good g hg gender)
  obtain ⟨ln, hln, hlnmem⟩ := generate_last_name_good g σ (k + 1) hg.2.2
  refine ⟨{ first_name := fn, last_name := ln }, ?_, hfnmem, hlnmem⟩
  simp [generate_specific, hfn, hln]

lemma generate_good (g : RandomNameGenerator) (σ : RandStream) (k : Nat)
    (hg : g.Good) :
    ∃ nm, generate g σ k = some (nm, k + 3) ∧ g.InBanks nm := by
  obtain ⟨nm, hnm, hmem1, hmem2⟩ :=
    generate_specific_good g (get_random_gender (σ k)) σ (k + 1) hg
  refine ⟨nm, ?_, ?_, hmem2⟩
  · simpa [generate] using hnm
  · cases h : get_random_gender (σ k) with
    | Male => rw [h] at hmem1; exact Or.inl (by simpa [genderBank] using hmem1)
    | Female => rw [h] at hmem1; exact Or.inr (by simpa [genderBank] using hmem1)

lemma generate_specific_loop_good (g : RandomNameGenerator) (gender : Gender)
    (hg : g.Good) :
    ∀ (n : Nat) (σ : RandStream) (k : Nat),
      ∃ l, generate_specific_loop g gender n σ k = some (l, k + 2 * n) ∧
        l.length = n ∧
        ∀ nm ∈ l, nm.first_name ∈ (g.genderBank gender).bank ∧
          nm.last_name ∈ g.last_names.bank := by
  intro n
  induction n with
  | zero =>
    intro σ k
    exact ⟨[], by simp [generate_specific_loop], rfl, by simp⟩
  | succ n ih =>
    intro σ k
    obtain ⟨nm, hnm, hmem1, hmem2⟩ := generate_specific_good g gender σ k hg
    obtain ⟨rest, hrest, hlen, hmem⟩ := ih σ (k + 2)
    rw [show k + 2 + 2 * n = k + 2 * (n + 1) from by ring] at hrest
    refine ⟨nm :: rest, ?_, by simp [hlen], ?_⟩
    · simp [generate_specific_loop, hnm, hrest]
    · intro x hx
      rcases List.mem_cons.mp hx with h | h
      · subst h; exact ⟨hmem1, hmem2⟩
      · exact hmem x h

lemma generate_many_loop_good (g : RandomNameGenerator) (hg : g.Good) :
    ∀ (n : Nat) (σ : RandStream) (k : Nat),
      ∃ l, generate_many_loop g n σ k = some (l, k + 3 * n) ∧
        l.length = n ∧
        (∀ i, i < n → l[i]? = Option.map Prod.fst (generate g σ (k + 3 * i))) ∧
        ∀ nm ∈ l, g.InBanks nm := by
  intro n
  induction n with
  | zero =>
    intro σ k
    exact ⟨[], by simp [generate_many_loop], rfl, by omega, by simp⟩
  | succ n ih =>
    intro σ k
    obtain ⟨nm, hnm, hmem⟩ := generate_good g σ k hg
    obtain ⟨rest, hrest, hlen, hidx, hall⟩ := ih σ (k + 3)
    rw [show k + 3 + 3 * n = k + 3 * (n + 1) from by ring] at hrest
    refine ⟨nm :: rest, ?_, by simp [hlen], ?_, ?_⟩
    · simp [generate_many_loop, hnm, hrest]
    · intro i hi
      cases i with
      | zero => simp [hnm]
      | succ j =>
        have hj : j < n := by omega
        have := hidx j hj
        rw [show k + 3 + 3 * j = k + 3 * (j + 1) from by ring] at this
        simpa using this
    · intro x hx
      rcases List.mem_cons.mp hx with h | h
      · subst h; exact hmem
      · exact hall x h

lemma generate_family_member_good (g : RandomNameGenerator) (fln : String)
    (gender : Gender) (σ : RandStream) (k : Nat)
    (hb : (g.genderBank gender).Good) :
    ∃ nm, generate_family_member g fln gender σ k = some (nm, k + 1) ∧
      nm.first_name ∈ (g.genderBank gender).bank ∧ nm.last_name = fln := by
  obtain ⟨s, hs, hmem⟩ := generate_first_name_specific_good g gender σ k hb
  exact ⟨{ first_name := s, last_name := fln }, by simp [generate_family_member, hs],
    hmem, rfl⟩

lemma family_children_loop_good (g : RandomNameGenerator) (fln : String)
    (gender : Gender) (hb : (g.genderBank gender).Good) :
    ∀ (n : Nat) (σ : RandStream) (k : Nat),
      ∃ l, family_children_loop g fln gender n σ k = some (l, k + n) ∧
        l.length = n ∧
        ∀ nm ∈ l, nm.first_name ∈ (g.genderBank gender).bank ∧
          nm.last_name = fln := by
  intro n
  induction n with
  | zero =>
    intro σ k
    exact ⟨[], by simp [family_children_loop], rfl, by simp⟩
  | succ n ih =>
    intro σ k
    obtain ⟨nm, hnm, hmem1, hmem2⟩ := generate_family_member_good g fln gender σ k hb
    obtain ⟨rest, hrest, hlen, hmem⟩ := ih σ (k + 1)
    rw [show k + 1 + n = k + (n + 1) from by ring] at hrest
    refine ⟨nm :: rest, ?_, by simp [hlen], ?_⟩
    · simp [family_children_loop, hnm, hrest]
    · intro x hx
      rcases List.mem_cons.mp hx with h | h
      · subst h; exact ⟨hmem1, hmem2⟩
      · exact hmem x h

end NameMaker

namespace NameMaker

open RandomNameGenerator

lemma generate_family_good (g : RandomNameGenerator) (n : Nat)
    (σ : RandStream) (k : Nat) (hg : g.Good) :
    ∃ fln fa mo ch,
      generate_family g n σ k = some (fa :: mo :: ch, k + (3 + n)) ∧
      fln ∈ g.last_names.bank ∧
      fa.first_name ∈ g.male_first_names.bank ∧ fa.last_name = fln ∧
      mo.first_name ∈ g.female_first_names.bank ∧ mo.last_name = fln ∧
      ch.length = n ∧
      ∀ nm ∈ ch, nm.first_name ∈ g.male_first_names.bank ∧ nm.last_name = fln := by
  obtain ⟨fln, hfln, hflnmem⟩ := generate_last_name_good g σ k hg.2.2
  obtain ⟨fa, hfa, hfamem, hfaln⟩ :=
    generate_family_member_good g fln Gender.Male σ (k + 1) (genderBank_good g hg Gender.Male)
  obtain ⟨mo, hmo, hmomem, hmoln⟩ :=
    generate_family_member_good g fln Gender.Female σ (k + 2) (genderBank_good g hg Gender.Female)
  obtain ⟨ch, hch, hchlen, hchmem⟩ :=
    family_children_loop_good g fln Gender.Male (genderBank_good g hg Gender.Male) n σ (k + 3)
  rw [show k + 3 + n = k + (3 + n) from by ring] at hch
  refine ⟨fln, fa, mo, ch, ?_, hflnmem, ?_, hfaln, ?_, hmoln, hchlen, ?_⟩
  · simp [generate_family, hfln, hfa, hmo, hch]
  · simpa [genderBank] using hfamem
  · simpa [genderBank] using hmomem
  · intro nm hnm
    have := hchmem nm hnm
    exact ⟨by simpa [genderBank] using this.1, this.2⟩

lemma generate_family_specific_good (g : RandomNameGenerator) (m f : Nat)
    (σ : RandStream) (k : Nat) (hg : g.Good) :
    ∃ fln fa mo boys girls,
      generate_family_specific g m f σ k =
        some (fa :: mo :: (boys ++ girls), k + (3 + (m + f))) ∧
      fln ∈ g.last_names.bank ∧
      fa.first_name ∈ g.male_first_names.bank ∧ fa.last_name = fln ∧
      mo.first_name ∈ g.female_first_names.bank ∧ mo.last_name = fln ∧
      boys.length = m ∧ girls.length = f ∧
      (∀ nm ∈ boys, nm.first_name ∈ g.male_first_names.bank ∧ nm.last_name = fln) ∧
      ∀ nm ∈ girls, nm.first_name ∈ g.female_first_names.bank ∧ nm.last_name = fln := by
  obtain ⟨fln, hfln, hflnmem⟩ := generate_last_name_good g σ k hg.2.2
  obtain ⟨fa, hfa, hfamem, hfaln⟩ :=
    generate_family_member_good g fln Gender.Male σ (k + 1) (genderBank_good g hg Gender.Male)
  obtain ⟨mo, hmo, hmomem, hmoln⟩ :=
    generate_family_member_good g fln Gender.Female σ (k + 2) (genderBank_good g hg Gender.Female)
  obtain ⟨boys, hboys, hblen, hbmem⟩ :=
    family_children_loop_good g fln Gender.Male (genderBank_good g hg Gender.Male) m σ (k + 3)
  obtain ⟨girls, hgirls, hglen, hgmem⟩ :=
    family_children_loop_good g fln Gender.Female (genderBank_good g hg Gender.Female) f σ (k + 3 + m)
  rw [show k + 3 + m + f = k + (3 + (m + f)) from by ring] at hgirls
  refine ⟨fln, fa, mo, boys, girls, ?_, hflnmem, ?_, hfaln, ?_, hmoln, hblen, hglen, ?_, ?_⟩
  · simp [generate_family_specific, hfln, hfa, hmo, hboys, hgirls]
  · simpa [genderBank] using hfamem
  · simpa [genderBank] using hmomem
  · intro nm hnm
    have := hbmem nm hnm
    exact ⟨by simpa [genderBank] using this.1, this.2⟩
  · intro nm hnm
    have := hgmem nm hnm
    exact ⟨by simpa [genderBank] using this.1, this.2⟩

end NameMaker

namespace NameMaker

open RandomNameGenerator

lemma generate_first_name_specific_snd (g : RandomNameGenerator) (gender : Gender)
    (σ : RandStream) (k : Nat) (p : String × Nat)
    (h : generate_first_name_specific g gender σ k = some p) : p.2 = k + 1 := by
  cases gender with
  | Male =>
    rcases hi : get_rand_index g.male_first_names.len (σ k) with _ | i <;>
      simp only [generate_first_name_specific, hi] at h
    · exact Option.noConfusion h
    · rcases hs : g.male_first_names.bank[i]? with _ | s <;> simp only [hs] at h
      · exact Option.noConfusion h
      · injection h with h1; subst h1; rfl
  | Female =>
    rcases hi : get_rand_index g.female_first_names.len (σ k) with _ | i <;>
      simp only [generate_first_name_specific, hi] at h
    · exact Option.noConfusion h
    · rcases hs : g.female_first_names.bank[i]? with _ | s <;> simp only [hs] at h
      · exact Option.noConfusion h
      · injection h with h1; subst h1; rfl

lemma generate_last_name_snd (g : RandomNameGenerator) (σ : RandStream)
    (k : Nat) (p : String × Nat)
    (h : generate_last_name g σ k = some p) : p.2 = k + 1 := by
  rcases hi : get_rand_index g.last_names.len (σ k) with _ | i <;>
    simp only [generate_last_name, hi] at h
  · exact Option.noConfusion h
  · rcases hs : g.last_names.bank[i]? with _ | s <;> simp only [hs] at h
    · exact Option.noConfusion h
    · injection h with h1; subst h1; rfl

lemma generate_specific_snd (g : RandomNameGenerator) (gender : Gender)
    (σ : RandStream) (k : Nat) (p : RandomName × Nat)
    (h : generate_specific g gender σ k = some p) : p.2 = k + 2 := by
  rcases hfst : generate_first_name_specific g gender σ k with _ | ⟨fn, k1⟩ <;>
    simp only [generate_specific, hfst] at h
  · exact Option.noConfusion h
  · rcases hln : generate_last_name g σ k1 with _ | ⟨ln, k2⟩ <;>
      simp only [hln] at h
    · exact Option.noConfusion h
    · injection h with h1
      subst h1
      have e1 : k1 = k + 1 := generate_first_name_specific_snd g gender σ k (fn, k1) hfst
      have e2 : k2 = k1 + 1 := generate_last_name_snd g σ k1 (ln, k2) hln
      show k2 = k + 2
      omega

lemma generate_snd (g : RandomNameGenerator) (σ : RandStream) (k : Nat)
    (p : RandomName × Nat) (h : generate g σ k = some p) : p.2 = k + 3 := by
  have := generate_specific_snd g (get_random_gender (σ k)) σ (k + 1) p (by simpa [generate] using h)
  omega

lemma generate_family_member_snd (g : RandomNameGenerator) (fln : String)
    (gender : Gender) (σ : RandStream) (k : Nat) (p : RandomName × Nat)
    (h : generate_family_member g fln gender σ k = some p) : p.2 = k + 1 := by
  rcases hfst : generate_first_name_specific g gender σ k with _ | ⟨fn, k1⟩ <;>
    simp only [generate_family_member, hfst] at h
  · exact Option.noConfusion h
  · injection h with h1
    subst h1
    exact generate_first_name_specific_snd g gender σ k (fn, k1) hfst

lemma generate_specific_loop_snd (g : RandomNameGenerator) (gender : Gender) :
    ∀ (n : Nat) (σ : RandStream) (k : Nat) (p : List RandomName × Nat),
      generate_specific_loop g gender n σ k = some p → p.2 = k + 2 * n := by
  intro n
  induction n with
  | zero =>
    intro σ k p h
    injection h with h1
    subst h1
    simp
  | succ n ih =>
    intro σ k p h
    rcases hs : generate_specific g gender σ k with _ | ⟨nm, k1⟩ <;>
      simp only [generate_specific_loop, hs] at h
    · exact Option.noConfusion h
    · rcases hr : generate_specific_loop g gender n σ k1 with _ | ⟨rest, k2⟩ <;>
        simp only [hr] at h
      · exact Option.noConfusion h
      · injection h with h1
        subst h1
        have e1 : k1 = k + 2 := generate_specific_snd g gender σ k (nm, k1) hs
        have e2 : k2 = k1 + 2 * n := ih σ k1 (rest, k2) hr
        show k2 = k + 2 * (n + 1)
        omega

lemma generate_many_loop_snd (g : RandomNameGenerator) :
    ∀ (n : Nat) (σ : RandStream) (k : Nat) (p : List RandomName × Nat),
      generate_many_loop g n σ k = some p → p.2 = k + 3 * n := by
  intro n
  induction n with
  | zero =>
    intro σ k p h
    injection h with h1
    subst h1
    simp
  | succ n ih =>
    intro σ k p h
    rcases hs : generate g σ k with _ | ⟨nm, k1⟩ <;>
      simp only [generate_many_loop, hs] at h
    · exact Option.noConfusion h
    · rcases hr : generate_many_loop g n σ k1 with _ | ⟨rest, k2⟩ <;>
        simp only [hr] at h
      · exact Option.noConfusion h
      · injection h with h1
        subst h1
        have e1 : k1 = k + 3 := generate_snd g σ k (nm, k1) hs
        have e2 : k2 = k1 + 3 * n := ih σ k1 (rest, k2) hr
        show k2 = k + 3 * (n + 1)
        omega

lemma family_children_loop_snd (g : RandomNameGenerator) (fln : String)
    (gender : Gender) :
    ∀ (n : Nat) (σ : RandStream) (k : Nat) (p : List RandomName × Nat),
      family_children_loop g fln gender n σ k = some p → p.2 = k + n := by
  intro n
  induction n with
  | zero =>
    intro σ k p h
    injection h with h1
    subst h1
    simp
  | succ n ih =>
    intro σ k p h
    rcases hs : generate_family_member g fln gender σ k with _ | ⟨nm, k1⟩ <;>
      simp only [family_children_loop, hs] at h
    · exact Option.noConfusion h
    · rcases hr : family_children_loop g fln gender n σ k1 with _ | ⟨rest, k2⟩ <;>
        simp only [hr] at h
      · exact Option.noConfusion h
      · injection h with h1
        subst h1
        have e1 : k1 = k + 1 := generate_family_member_snd g fln gender σ k (nm, k1) hs
        have e2 : k2 = k1 + n := ih σ k1 (rest, k2) hr
        show k2 = k + (n + 1)
        omega

end NameMaker

namespace NameMaker

open RandomNameGenerator

lemma generate_first_name_specific_congr (g : RandomNameGenerator)
    (gender : Gender) (σ τ : RandStream) (k : Nat) (h : σ k = τ k) :
    generate_first_name_specific g gender σ k =
      generate_first_name_specific g gender τ k := by
  cases gender <;> simp only [generate_first_name_specific, h]

lemma generate_last_name_congr (g : RandomNameGenerator) (σ τ : RandStream)
    (k : Nat) (h : σ k = τ k) :
    generate_last_name g σ k = generate_last_name g τ k := by
  simp only [generate_last_name, h]

lemma generate_specific_congr (g : RandomNameGenerator) (gender : Gender)
    (σ τ : RandStream) (k : Nat) (h0 : σ k = τ k) (h1 : σ (k + 1) = τ (k + 1)) :
    generate_specific g gender σ k = generate_specific g gender τ k := by
  simp only [generate_specific,
    generate_first_name_specific_congr g gender σ τ k h0]
  rcases hfst : generate_first_name_specific g gender τ k with _ | ⟨fn, k1⟩
  · rfl
  · have hk1 : k1 = k + 1 :=
      generate_first_name_specific_snd g gender τ k (fn, k1) hfst
    subst hk1
    simp only [generate_last_name_congr g σ τ (k + 1) h1]

lemma generate_congr (g : RandomNameGenerator) (σ τ : RandStream) (k : Nat)
    (h : ∀ j, j < 3 → σ (k + j) = τ (k + j)) :
    generate g σ k = generate g τ k := by
  have h0 : σ k = τ k := h 0 (by omega)
  simp only [generate, h0]
  exact generate_specific_congr g _ σ τ (k + 1) (h 1 (by omega)) (h 2 (by omega))

lemma generate_specific_loop_congr (g : RandomNameGenerator) (gender : Gender) :
    ∀ (n : Nat) (σ τ : RandStream) (k : Nat),
      (∀ j, j < 2 * n → σ (k + j) = τ (k + j)) →
      generate_specific_loop g gender n σ k =
        generate_specific_loop g gender n τ k := by
  intro n
  induction n with
  | zero => intro σ τ k _; rfl
  | succ n ih =>
    intro σ τ k h
    have hc := generate_specific_congr g gender σ τ k (h 0 (by omega)) (h 1 (by omega))
    simp only [generate_specific_loop, hc]
    rcases hs : generate_specific g gender τ k with _ | ⟨nm, k1⟩
    · rfl
    · have hk1 : k1 = k + 2 := generate_specific_snd g gender τ k (nm, k1) hs
      subst hk1
      dsimp only
      rw [ih σ τ (k + 2)
        (fun j hj => by simpa [Nat.add_assoc] using h (2 + j) (by omega))]

lemma generate_many_loop_congr (g : RandomNameGenerator) :
    ∀ (n : Nat) (σ τ : RandStream) (k : Nat),
      (∀ j, j < 3 * n → σ (k + j) = τ (k + j)) →
      generate_many_loop g n σ k = generate_many_loop g n τ k := by
  intro n
  induction n with
  | zero => intro σ τ k _; rfl
  | succ n ih =>
    intro σ τ k h
    have hc := generate_congr g σ τ k (fun j hj => h j (by omega))
    simp only [generate_many_loop, hc]
    rcases hs : generate g τ k with _ | ⟨nm, k1⟩
    · rfl
    · have hk1 : k1 = k + 3 := generate_snd g τ k (nm, k1) hs
      subst hk1
      dsimp only
      rw [ih σ τ (k + 3)
        (fun j hj => by simpa [Nat.add_assoc] using h (3 + j) (by omega))]

lemma generate_family_member_congr (g : RandomNameGenerator) (fln : String)
    (gender : Gender) (σ τ : RandStream) (k : Nat) (h : σ k = τ k) :
    generate_family_member g fln gender σ k =
      generate_family_member g fln gender τ k := by
  simp only [generate_family_member,
    generate_first_name_specific_congr g gender σ τ k h]

lemma family_children_loop_congr (g : RandomNameGenerator) (fln : String)
    (gender : Gender) :
    ∀ (n : Nat) (σ τ : RandStream) (k : Nat),
      (∀ j, j < n → σ (k + j) = τ (k + j)) →
      family_children_loop g fln gender n σ k =
        family_children_loop g fln gender n τ k := by
  intro n
  induction n with
  | zero => intro σ τ k _; rfl
  | succ n ih =>
    intro σ τ k h
    have hc := generate_family_member_congr g fln gender σ τ k (h 0 (by omega))
    simp only [family_children_loop, hc]
    rcases hs : generate_family_member g fln gender τ k with _ | ⟨nm, k1⟩
    · rfl
    · have hk1 : k1 = k + 1 := generate_family_member_snd g fln gender τ k (nm, k1) hs
      subst hk1
      dsimp only
      rw [ih σ τ (k + 1)
        (fun j hj => by simpa [Nat.add_assoc] using h (1 + j) (by omega))]

lemma generate_many_congr (g : RandomNameGenerator) (amount : Nat)
    (σ τ : RandStream) (k : Nat)
    (h : ∀ j, j < 3 * amount → σ (k + j) = τ (k + j)) :
    generate_many g amount σ k = generate_many g amount τ k := by
  by_cases hz : amount = 0
  · subst hz; rfl
  · simp only [generate_many, hz, if_false]
    rw [generate_many_loop_congr g amount σ τ k h]

lemma generate_many_specific_congr (g : RandomNameGenerator)
    (male_amount female_amount : Nat) (σ τ : RandStream) (k : Nat)
    (h : ∀ j, j < 2 * (male_amount + female_amount) → σ (k + j) = τ (k + j)) :
    generate_many_specific g male_amount female_amount σ k =
      generate_many_specific g male_amount female_amount τ k := by
  by_cases hz : male_amount = 0 ∧ female_amount = 0
  · simp only [generate_many_specific, if_pos hz]
  · simp only [generate_many_specific, if_neg hz]
    rw [generate_specific_loop_congr g Gender.Male male_amount σ τ k
      (fun j hj => h j (by omega))]
    rcases hm : generate_specific_loop g Gender.Male male_amount τ k with _ | ⟨males, k1⟩
    · rfl
    · have hk1 : k1 = k + 2 * male_amount :=
        generate_specific_loop_snd g Gender.Male male_amount τ k (males, k1) hm
      subst hk1
      dsimp only
      rw [generate_specific_loop_congr g Gender.Female female_amount σ τ
        (k + 2 * male_amount)
        (fun j hj => by
          simpa [Nat.add_assoc] using h (2 * male_amount + j) (by omega))]


lemma generate_family_congr (g : RandomNameGenerator) (children_amount : Nat)
    (σ τ : RandStream) (k : Nat)
    (h : ∀ j, j < 3 + children_amount → σ (k + j) = τ (k + j)) :
    generate_family g children_amount σ k =
      generate_family g children_amount τ k := by
  simp only [generate_family, generate_last_name_congr g σ τ k (h 0 (by omega))]
  rcases hln : generate_last_name g τ k with _ | ⟨fln, k1⟩
  · rfl
  · have hk1 : k1 = k + 1 := generate_last_name_snd g τ k (fln, k1) hln
    subst hk1
    dsimp only
    rw [generate_family_member_congr g fln Gender.Male σ τ (k + 1) (h 1 (by omega))]
    rcases hfa : generate_family_member g fln Gender.Male τ (k + 1) with _ | ⟨fa, k2⟩
    · rfl
    · have hk2 : k2 = k + 2 := by
        have := generate_family_member_snd g fln Gender.Male τ (k + 1) (fa, k2) hfa
        omega
      subst hk2
      dsimp only
      rw [generate_family_member_congr g fln Gender.Female σ τ (k + 2) (h 2 (by omega))]
      rcases hmo : generate_family_member g fln Gender.Female τ (k + 2) with _ | ⟨mo, k3⟩
      · rfl
      · have hk3 : k3 = k + 3 := by
          have := generate_family_member_snd g fln Gender.Female τ (k + 2) (mo, k3) hmo
          omega
        subst hk3
        dsimp only
        rw [family_children_loop_congr g fln Gender.Male children_amount σ τ (k + 3)
          (fun j hj => by simpa [Nat.add_assoc] using h (3 + j) (by omega))]

lemma generate_family_specific_congr (g : RandomNameGenerator)
    (male_children_amount female_children_amount : Nat)
    (σ τ : RandStream) (k : Nat)
    (h : ∀ j, j < 3 + (male_children_amount + female_children_amount) →
      σ (k + j) = τ (k + j)) :
    generate_family_specific g male_children_amount female_children_amount σ k =
      generate_family_specific g male_children_amount female_children_amount τ k := by
  simp only [generate_family_specific,
    generate_last_name_congr g σ τ k (h 0 (by omega))]
  rcases hln : generate_last_name g τ k with _ | ⟨fln, k1⟩
  · rfl
  · have hk1 : k1 = k + 1 := generate_last_name_snd g τ k (fln, k1) hln
    subst hk1
    dsimp only
    rw [generate_family_member_congr g fln Gender.Male σ τ (k + 1) (h 1 (by omega))]
    rcases hfa : generate_family_member g fln Gender.Male τ (k + 1) with _ | ⟨fa, k2⟩
    · rfl
    · have hk2 : k2 = k + 2 := by
        have := generate_family_member_snd g fln Gender.Male τ (k + 1) (fa, k2) hfa
        omega
      subst hk2
      dsimp only
      rw [generate_family_member_congr g fln Gender.Female σ τ (k + 2) (h 2 (by omega))]
      rcases hmo : generate_family_member g fln Gender.Female τ (k + 2) with _ | ⟨mo, k3⟩
      · rfl
      · have hk3 : k3 = k + 3 := by
          have := generate_family_member_snd g fln Gender.Female τ (k + 2) (mo, k3) hmo
          omega
        subst hk3
        dsimp only
        rw [family_children_loop_congr g fln Gender.Male male_children_amount σ τ (k + 3)
          (fun j hj => by simpa [Nat.add_assoc] using h (3 + j) (by omega))]
        rcases hb : family_children_loop g fln Gender.Male male_children_amount τ (k + 3) with _ | ⟨boys, k4⟩
        · rfl
        · have hk4 : k4 = k + 3 + male_children_amount :=
            family_children_loop_snd g fln Gender.Male male_children_amount τ (k + 3) (boys, k4) hb
          subst hk4
          dsimp only
          rw [family_children_loop_congr g fln Gender.Female female_children_amount σ τ
            (k + 3 + male_children_amount)
            (fun j hj => by
              simpa [Nat.add_assoc] using h (3 + male_children_amount + j) (by omega))]

end NameMaker

namespace NameMaker

open RandomNameGenerator

lemma generate_many_good (g : RandomNameGenerator) (hg : g.Good) (amount : Nat)
    (σ : RandStream) (k : Nat) (hnz : amount ≠ 0) :
    ∃ l, generate_many g amount σ k = some (some l, k + 3 * amount) ∧
      l.length = amount ∧
      (∀ i, i < amount → l[i]? = Option.map Prod.fst (generate g σ (k + 3 * i))) ∧
      ∀ nm ∈ l, g.InBanks nm := by
  obtain ⟨l, hl, hlen, hidx, hall⟩ := generate_many_loop_good g hg amount σ k
  exact ⟨l, by simp [generate_many, hnz, hl], hlen, hidx, hall⟩

lemma generate_many_specific_good (g : RandomNameGenerator) (hg : g.Good)
    (male_amount female_amount : Nat) (σ : RandStream) (k : Nat)
    (hnz : ¬(male_amount = 0 ∧ female_amount = 0)) :
    ∃ males females,
      generate_many_specific g male_amount female_amount σ k =
        some (some (males ++ females), k + 2 * (male_amount + female_amount)) ∧
      males.length = male_amount ∧ females.length = female_amount ∧
      (∀ nm ∈ males, nm.first_name ∈ g.male_first_names.bank ∧
        nm.last_name ∈ g.last_names.bank) ∧
      ∀ nm ∈ females, nm.first_name ∈ g.female_first_names.bank ∧
        nm.last_name ∈ g.last_names.bank := by
  obtain ⟨males, hm, hmlen, hmmem⟩ :=
    generate_specific_loop_good g Gender.Male hg male_amount σ k
  obtain ⟨females, hf, hflen, hfmem⟩ :=
    generate_specific_loop_good g Gender.Female hg female_amount σ (k + 2 * male_amount)
  rw [show k + 2 * male_amount + 2 * female_amount =
    k + 2 * (male_amount + female_amount) from by ring] at hf
  refine ⟨males, females, ?_, hmlen, hflen, ?_, ?_⟩
  · simp [generate_many_specific, hnz, hm, hf]
  · intro nm hnm
    have := hmmem nm hnm
    exact ⟨by simpa [genderBank] using this.1, this.2⟩
  · intro nm hnm
    have := hfmem nm hnm
    exact ⟨by simpa [genderBank] using this.1, this.2⟩

end NameMaker

namespace NameMaker

open RandomNameGenerator

/-- C9: `generate_default_name` is the constant name with first_name "John" and
last_name "Doe", rendering as "John Doe"; it takes no inputs, consumes no
randomness and cannot fail. -/
theorem c9_default_name :
    generate_default_name = { first_name := "John", last_name := "Doe" } ∧
    generate_default_name.display = "John Doe" :=
  ⟨rfl, rfl⟩

/-- C10: `init` performs no emptiness validation: for arbitrary word lists it
returns a generator whose stored `len` fields equal the number of (trimmed)
entries pushed, one per input line; an empty word list is accepted and surfaces
only as a failure (`none`) at the first sampling call against that bank. -/
theorem c10_init_no_validation (male_lines female_lines last_lines : List String) :
    ((init male_lines female_lines last_lines).male_first_names.len =
        (init male_lines female_lines last_lines).male_first_names.bank.length ∧
      (init male_lines female_lines last_lines).male_first_names.bank.length =
        male_lines.length) ∧
    ((init male_lines female_lines last_lines).female_first_names.len =
        (init male_lines female_lines last_lines).female_first_names.bank.length ∧
      (init male_lines female_lines last_lines).female_first_names.bank.length =
        female_lines.length) ∧
    ((init male_lines female_lines last_lines).last_names.len =
        (init male_lines female_lines last_lines).last_names.bank.length ∧
      (init male_lines female_lines last_lines).last_names.bank.length =
        last_lines.length) ∧
    (male_lines = [] → ∀ (σ : RandStream) (k : Nat),
      generate_specific (init male_lines female_lines last_lines) Gender.Male σ k
        = none) := by
  refine ⟨⟨rfl, by simp [init, mkBank]⟩, ⟨rfl, by simp [init, mkBank]⟩,
    ⟨rfl, by simp [init, mkBank]⟩, ?_⟩
  intro hml σ k
  subst hml
  simp [generate_specific, generate_first_name_specific, get_rand_index, init, mkBank]

/-- C10 witness: instantiating `init` with an empty male list and non-empty
remaining lists. -/
theorem c10_witness :
    (["x"] : List String) = ["x"] ∧
    generate_specific (init [] ["Emma"] ["Smith"]) Gender.Male idStream 0 = none :=
  ⟨rfl, (c10_init_no_validation [] ["Emma"] ["Smith"]).2.2.2 rfl idStream 0⟩

/-- C5: `generate_many` returns the no-result signal exactly when the amount is
zero; for a positive amount it returns exactly `amount` names, the i-th being
the result of the i-th independent call to `generate` (call order is output
order). -/
theorem c5_generate_many_spec (g : RandomNameGenerator) (hg : g.Good)
    (amount : Nat) (σ : RandStream) (k : Nat) :
    (amount = 0 → generate_many g amount σ k = some (none, k)) ∧
    (0 < amount →
      ∃ l, generate_many g amount σ k = some (some l, k + 3 * amount) ∧
        l.length = amount ∧
        ∀ i, i < amount →
          l[i]? = Option.map Prod.fst (generate g σ (k + 3 * i))) := by
  constructor
  · intro hz
    simp [generate_many, hz]
  · intro hpos
    obtain ⟨l, hl, hlen, hidx, _⟩ :=
      generate_many_good g hg amount σ k (by omega)
    exact ⟨l, hl, hlen, hidx⟩

/-- C5 witness: at amount 0 the no-result signal, at amount 2 a list of two
names. -/
theorem c5_witness :
    testGen.Good ∧
    generate_many testGen 0 idStream 0 = some (none, 0) ∧
    ∃ l, generate_many testGen 2 idStream 0 = some (some l, 6) ∧ l.length = 2 := by
  refine ⟨by decide, ?_, ?_⟩
  · exact (c5_generate_many_spec testGen (by decide) 0 idStream 0).1 rfl
  · obtain ⟨l, h1, h2, _⟩ :=
      (c5_generate_many_spec testGen (by decide) 2 idStream 0).2 (by omega)
    exact ⟨l, h1, h2⟩

/-- C1: `generate_many_specific` returns the no-result signal exactly when both
amounts are zero; otherwise it returns M + F names, the first M with first
names from the male bank and the remaining F with first names from the female
bank, in that fixed order. -/
theorem c1_generate_many_specific_spec (g : RandomNameGenerator) (hg : g.Good)
    (male_amount female_amount : Nat) (σ : RandStream) (k : Nat) :
    (male_amount = 0 ∧ female_amount = 0 →
      generate_many_specific g male_amount female_amount σ k = some (none, k)) ∧
    (¬(male_amount = 0 ∧ female_amount = 0) →
      ∃ l, generate_many_specific g male_amount female_amount σ k =
          some (some l, k + 2 * (male_amount + female_amount)) ∧
        l.length = male_amount + female_amount ∧
        (∀ i, i < male_amount →
          ∃ nm, l[i]? = some nm ∧ nm.first_name ∈ g.male_first_names.bank) ∧
        (∀ i, male_amount ≤ i → i < male_amount + female_amount →
          ∃ nm, l[i]? = some nm ∧ nm.first_name ∈ g.female_first_names.bank)) := by
  constructor
  · intro hz
    simp [generate_many_specific, hz]
  · intro hnz
    obtain ⟨males, females, hl, hmlen, hflen, hmmem, hfmem⟩ :=
      generate_many_specific_good g hg male_amount female_amount σ k hnz
    refine ⟨males ++ females, hl, by simp [hmlen, hflen], ?_, ?_⟩
    · intro i hi
      have hi2 : i < males.length := by omega
      refine ⟨males[i], ?_, (hmmem males[i] (List.getElem_mem hi2)).1⟩
      rw [List.getElem?_append_left hi2, List.getElem?_eq_getElem hi2]
    · intro i hle hlt
      have hge : males.length ≤ i := by omega
      have hi2 : i - males.length < females.length := by omega
      refine ⟨females[i - males.length],
        ?_, (hfmem females[i - males.length] (List.getElem_mem hi2)).1⟩
      rw [List.getElem?_append_right hge, List.getElem?_eq_getElem hi2]

/-- C1 witness: at amounts (0, 0) the no-result signal, at (1, 1) a list of two
names, the first with a male-bank first name, the second with a female-bank
first name. -/
theorem c1_witness :
    testGen.Good ∧
    generate_many_specific testGen 0 0 idStream 0 = some (none, 0) ∧
    ∃ l, generate_many_specific testGen 1 1 idStream 0 = some (some l, 4) ∧
      l.length = 2 ∧
      (∃ nm, l[0]? = some nm ∧ nm.first_name ∈ testGen.male_first_names.bank) ∧
      ∃ nm, l[1]? = some nm ∧ nm.first_name ∈ testGen.female_first_names.bank := by
  refine ⟨by decide, ?_, ?_⟩
  · exact (c1_generate_many_specific_spec testGen (by decide) 0 0 idStream 0).1
      ⟨rfl, rfl⟩
  · obtain ⟨l, h1, h2, h3, h4⟩ :=
      (c1_generate_many_specific_spec testGen (by decide) 1 1 idStream 0).2
        (by simp)
    exact ⟨l, h1, h2, h3 0 (by omega), h4 1 (by omega) (by omega)⟩

end NameMaker

namespace NameMaker

open RandomNameGenerator

lemma getElem?_cons_cons (a b : RandomName) (l : List RandomName) (j : Nat) :
    (a :: b :: l)[j + 2]? = l[j]? := by
  simp [List.getElem?_cons_succ]

/-- C2: `generate_family` never signals no-result: for every children amount N
it returns 2 + N names, a male-bank father at position 0, a female-bank mother
at position 1, then the N children, all sharing one surname drawn from the
surname bank. -/
theorem c2_generate_family_spec (g : RandomNameGenerator) (hg : g.Good)
    (children_amount : Nat) (σ : RandStream) (k : Nat) :
    ∃ fln l, fln ∈ g.last_names.bank ∧
      generate_family g children_amount σ k =
        some (l, k + (3 + children_amount)) ∧
      l.length = 2 + children_amount ∧
      (∃ fa, l[0]? = some fa ∧ fa.first_name ∈ g.male_first_names.bank) ∧
      (∃ mo, l[1]? = some mo ∧ mo.first_name ∈ g.female_first_names.bank) ∧
      ∀ nm ∈ l, nm.last_name = fln := by
  obtain ⟨fln, fa, mo, ch, hf, hmem, hfam, hfaln, hmom, hmoln, hchlen, hchmem⟩ :=
    generate_family_good g children_amount σ k hg
  refine ⟨fln, fa :: mo :: ch, hmem, hf,
    by simp only [List.length_cons, hchlen]; omega,
    ⟨fa, rfl, hfam⟩, ⟨mo, by simp, hmom⟩, ?_⟩
  intro nm hnm
  rcases List.mem_cons.mp hnm with h | h
  · subst h; exact hfaln
  rcases List.mem_cons.mp h with h2 | h2
  · subst h2; exact hmoln
  · exact (hchmem nm h2).2

/-- C2 witness: a family with one child — three names sharing one surname from
the bank. -/
theorem c2_witness :
    testGen.Good ∧
    ∃ fln l, fln ∈ testGen.last_names.bank ∧
      generate_family testGen 1 idStream 0 = some (l, 4) ∧
      l.length = 3 ∧ ∀ nm ∈ l, nm.last_name = fln := by
  refine ⟨by decide, ?_⟩
  obtain ⟨fln, l, h1, h2, h3, _, _, h6⟩ :=
    c2_generate_family_spec testGen (by decide) 1 idStream 0
  exact ⟨fln, l, h1, h2, h3, h6⟩

/-- C3: every child of `generate_family` (each position from 2 on) has a
first name drawn from the male bank, for every children amount and every
outcome of the random stream. -/
theorem c3_generate_family_children_all_male (g : RandomNameGenerator)
    (hg : g.Good) (children_amount : Nat) (σ : RandStream) (k : Nat) :
    ∃ l k2, generate_family g children_amount σ k = some (l, k2) ∧
      l.length = 2 + children_amount ∧
      ∀ i, 2 ≤ i → i < 2 + children_amount →
        ∃ nm, l[i]? = some nm ∧ nm.first_name ∈ g.male_first_names.bank := by
  obtain ⟨fln, fa, mo, ch, hf, _, _, _, _, _, hchlen, hchmem⟩ :=
    generate_family_good g children_amount σ k hg
  refine ⟨fa :: mo :: ch, k + (3 + children_amount), hf,
    by simp only [List.length_cons, hchlen]; omega, ?_⟩
  intro i h2 hlt
  obtain ⟨j, rfl⟩ : ∃ j, i = j + 2 := ⟨i - 2, by omega⟩
  have hj : j < ch.length := by omega
  refine ⟨ch[j], ?_, (hchmem ch[j] (List.getElem_mem hj)).1⟩
  rw [getElem?_cons_cons, List.getElem?_eq_getElem hj]

/-- C3 witness: the single child of a one-child family has a male-bank first
name. -/
theorem c3_witness :
    testGen.Good ∧
    ∃ l k2, generate_family testGen 1 idStream 0 = some (l, k2) ∧
      ∃ nm, l[2]? = some nm ∧ nm.first_name ∈ testGen.male_first_names.bank := by
  refine ⟨by decide, ?_⟩
  obtain ⟨l, k2, h1, _, h3⟩ :=
    c3_generate_family_children_all_male testGen (by decide) 1 idStream 0
  exact ⟨l, k2, h1, h3 2 (by omega) (by omega)⟩

/-- C4: `generate_family_specific` has no all-zero short-circuit: for every
(M, F) it returns 2 + M + F names — father, mother, M male-bank children, then
F female-bank children — all sharing one surname from the surname bank. -/
theorem c4_generate_family_specific_spec (g : RandomNameGenerator) (hg : g.Good)
    (male_children_amount female_children_amount : Nat) (σ : RandStream) (k : Nat) :
    ∃ fln l, fln ∈ g.last_names.bank ∧
      generate_family_specific g male_children_amount female_children_amount σ k =
        some (l, k + (3 + (male_children_amount + female_children_amount))) ∧
      l.length = 2 + (male_children_amount + female_children_amount) ∧
      (∃ fa, l[0]? = some fa ∧ fa.first_name ∈ g.male_first_names.bank) ∧
      (∃ mo, l[1]? = some mo ∧ mo.first_name ∈ g.female_first_names.bank) ∧
      (∀ i, 2 ≤ i → i < 2 + male_children_amount →
        ∃ nm, l[i]? = some nm ∧ nm.first_name ∈ g.male_first_names.bank) ∧
      (∀ i, 2 + male_children_amount ≤ i →
        i < 2 + male_children_amount + female_children_amount →
        ∃ nm, l[i]? = some nm ∧ nm.first_name ∈ g.female_first_names.bank) ∧
      ∀ nm ∈ l, nm.last_name = fln := by
  obtain ⟨fln, fa, mo, boys, girls, hf, hmem, hfam, hfaln, hmom, hmoln,
    hblen, hglen, hbmem, hgmem⟩ :=
    generate_family_specific_good g male_children_amount female_children_amount σ k hg
  refine ⟨fln, fa :: mo :: (boys ++ girls), hmem, hf,
    by simp only [List.length_cons, List.length_append, hblen, hglen]; omega,
    ⟨fa, rfl, hfam⟩, ⟨mo, by simp, hmom⟩, ?_, ?_, ?_⟩
  · intro i h2 hlt
    obtain ⟨j, rfl⟩ : ∃ j, i = j + 2 := ⟨i - 2, by omega⟩
    have hj : j < boys.length := by omega
    refine ⟨boys[j], ?_, (hbmem boys[j] (List.getElem_mem hj)).1⟩
    rw [getElem?_cons_cons, List.getElem?_append_left hj,
      List.getElem?_eq_getElem hj]
  · intro i hle hlt
    obtain ⟨j, rfl⟩ : ∃ j, i = j + 2 := ⟨i - 2, by omega⟩
    have hge : boys.length ≤ j := by omega
    have hj : j - boys.length < girls.length := by omega
    refine ⟨girls[j - boys.length], ?_,
      (hgmem girls[j - boys.length] (List.getElem_mem hj)).1⟩
    rw [getElem?_cons_cons, List.getElem?_append_right hge,
      List.getElem?_eq_getElem hj]
  · intro nm hnm
    rcases List.mem_cons.mp hnm with h | h
    · subst h; exact hfaln
    rcases List.mem_cons.mp h with h2 | h2
    · subst h2; exact hmoln
    rcases List.mem_append.mp h2 with h3 | h3
    · exact (hbmem nm h3).2
    · exact (hgmem nm h3).2

/-- C4 witness: the spec's example (2, 3) — seven names, parents first, all
sharing one surname. -/
theorem c4_witness :
    testGen.Good ∧
    ∃ fln l, fln ∈ testGen.last_names.bank ∧
      generate_family_specific testGen 2 3 idStream 0 = some (l, 8) ∧
      l.length = 7 ∧ ∀ nm ∈ l, nm.last_name = fln := by
  refine ⟨by decide, ?_⟩
  obtain ⟨fln, l, h1, h2, h3, _, _, _, _, h8⟩ :=
    c4_generate_family_specific_spec testGen (by decide) 2 3 idStream 0
  exact ⟨fln, l, h1, h2, h3, h8⟩

end NameMaker

namespace NameMaker

open RandomNameGenerator

/-- C6: `generate_specific` returns a name whose first_name is a verbatim
member of the bank matching the requested gender and whose last_name is a
verbatim member of the surname bank; and every name returned by every
generation operation has its components drawn verbatim from the banks. -/
theorem c6_bank_membership_invariant (g : RandomNameGenerator) (hg : g.Good)
    (σ : RandStream) (k : Nat) :
    (∀ gender, ∃ nm, generate_specific g gender σ k = some (nm, k + 2) ∧
      nm.first_name ∈ (g.genderBank gender).bank ∧
      nm.last_name ∈ g.last_names.bank) ∧
    (∀ nm k2, generate g σ k = some (nm, k2) → g.InBanks nm) ∧
    (∀ amount l k2, generate_many g amount σ k = some (some l, k2) →
      ∀ nm ∈ l, g.InBanks nm) ∧
    (∀ m f l k2, generate_many_specific g m f σ k = some (some l, k2) →
      ∀ nm ∈ l, g.InBanks nm) ∧
    (∀ n l k2, generate_family g n σ k = some (l, k2) →
      ∀ nm ∈ l, g.InBanks nm) ∧
    (∀ m f l k2, generate_family_specific g m f σ k = some (l, k2) →
      ∀ nm ∈ l, g.InBanks nm) := by
  refine ⟨?_, ?_, ?_, ?_, ?_, ?_⟩
  · intro gender
    exact generate_specific_good g gender σ k hg
  · intro nm k2 h
    obtain ⟨nm2, h2, hib⟩ := generate_good g σ k hg
    rw [h2] at h
    simp only [Option.some.injEq, Prod.mk.injEq] at h
    obtain ⟨hnm, _⟩ := h
    subst hnm
    exact hib
  · intro amount l k2 h
    by_cases hz : amount = 0
    · subst hz
      simp [generate_many] at h
    · obtain ⟨l2, h2, _, _, hall⟩ := generate_many_good g hg amount σ k hz
      rw [h2] at h
      simp only [Option.some.injEq, Prod.mk.injEq] at h
      obtain ⟨hl, _⟩ := h
      subst hl
      exact hall
  · intro m f l k2 h
    by_cases hz : m = 0 ∧ f = 0
    · simp [generate_many_specific, hz] at h
    · obtain ⟨males, females, h2, _, _, hmm, hfm⟩ :=
        generate_many_specific_good g hg m f σ k hz
      rw [h2] at h
      simp only [Option.some.injEq, Prod.mk.injEq] at h
      obtain ⟨hl, _⟩ := h
      subst hl
      intro nm hnm
      rcases List.mem_append.mp hnm with h3 | h3
      · exact ⟨Or.inl (hmm nm h3).1, (hmm nm h3).2⟩
      · exact ⟨Or.inr (hfm nm h3).1, (hfm nm h3).2⟩
  · intro n l k2 h
    obtain ⟨fln, fa, mo, ch, h2, hmem, hfam, hfaln, hmom, hmoln, _, hchmem⟩ :=
      generate_family_good g n σ k hg
    rw [h2] at h
    simp only [Option.some.injEq, Prod.mk.injEq] at h
    obtain ⟨hl, _⟩ := h
    subst hl
    intro nm hnm
    rcases List.mem_cons.mp hnm with h3 | h3
    · subst h3; exact ⟨Or.inl hfam, by rw [hfaln]; exact hmem⟩
    rcases List.mem_cons.mp h3 with h4 | h4
    · subst h4; exact ⟨Or.inr hmom, by rw [hmoln]; exact hmem⟩
    · exact ⟨Or.inl (hchmem nm h4).1, by rw [(hchmem nm h4).2]; exact hmem⟩
  · intro m f l k2 h
    obtain ⟨fln, fa, mo, boys, girls, h2, hmem, hfam, hfaln, hmom, hmoln,
      _, _, hbmem, hgmem⟩ :=
      generate_family_specific_good g m f σ k hg
    rw [h2] at h
    simp only [Option.some.injEq, Prod.mk.injEq] at h
    obtain ⟨hl, _⟩ := h
    subst hl
    intro nm hnm
    rcases List.mem_cons.mp hnm with h3 | h3
    · subst h3; exact ⟨Or.inl hfam, by rw [hfaln]; exact hmem⟩
    rcases List.mem_cons.mp h3 with h4 | h4
    · subst h4; exact ⟨Or.inr hmom, by rw [hmoln]; exact hmem⟩
    rcases List.mem_append.mp h4 with h5 | h5
    · exact ⟨Or.inl (hbmem nm h5).1, by rw [(hbmem nm h5).2]; exact hmem⟩
    · exact ⟨Or.inr (hgmem nm h5).1, by rw [(hgmem nm h5).2]; exact hmem⟩

/-- C6 witness: a concrete male-specific draw lands in the male bank and the
surname bank. -/
theorem c6_witness :
    testGen.Good ∧
    ∃ nm, generate_specific testGen Gender.Male idStream 0 = some (nm, 2) ∧
      nm.first_name ∈ (testGen.genderBank Gender.Male).bank ∧
      nm.last_name ∈ testGen.last_names.bank :=
  ⟨by decide,
    (c6_bank_membership_invariant testGen (by decide) idStream 0).1 Gender.Male⟩

/-- C7: with all three banks non-empty, every index draw is strictly below the
bank length, every bank lookup succeeds, and no generation operation can fail
(no `none` from any panic branch). -/
theorem c7_no_failure (g : RandomNameGenerator) (hg : g.Good)
    (σ : RandStream) (k : Nat) :
    (∀ len r, 0 < len → ∃ i, get_rand_index len r = some i ∧ i < len) ∧
    (∀ gender, (generate_first_name_specific g gender σ k).isSome = true) ∧
    ((generate_last_name g σ k).isSome = true) ∧
    (∀ gender, (generate_specific g gender σ k).isSome = true) ∧
    ((generate g σ k).isSome = true) ∧
    (∀ amount, (generate_many g amount σ k).isSome = true) ∧
    (∀ male_amount female_amount,
      (generate_many_specific g male_amount female_amount σ k).isSome = true) ∧
    (∀ n, (generate_family g n σ k).isSome = true) ∧
    (∀ m f, (generate_family_specific g m f σ k).isSome = true) := by
  refine ⟨?_, ?_, ?_, ?_, ?_, ?_, ?_, ?_, ?_⟩
  · intro len r h
    exact ⟨r % len, (get_rand_index_good len r h).1, (get_rand_index_good len r h).2⟩
  · intro gender
    obtain ⟨s, hs, _⟩ :=
      generate_first_name_specific_good g gender σ k (genderBank_good g hg gender)
    simp [hs]
  · obtain ⟨s, hs, _⟩ := generate_last_name_good g σ k hg.2.2
    simp [hs]
  · intro gender
    obtain ⟨nm, h, _, _⟩ := generate_specific_good g gender σ k hg
    simp [h]
  · obtain ⟨nm, h, _⟩ := generate_good g σ k hg
    simp [h]
  · intro amount
    by_cases hz : amount = 0
    · simp [generate_many, hz]
    · obtain ⟨l, h, _, _, _⟩ := generate_many_good g hg amount σ k hz
      simp [h]
  · intro male_amount female_amount
    by_cases hz : male_amount = 0 ∧ female_amount = 0
    · simp [generate_many_specific, hz]
    · obtain ⟨males, females, h, _⟩ :=
        generate_many_specific_good g hg male_amount female_amount σ k hz
      simp [h]
  · intro n
    obtain ⟨fln, fa, mo, ch, h, _⟩ := generate_family_good g n σ k hg
    simp [h]
  · intro m f
    obtain ⟨fln, fa, mo, boys, girls, h, _⟩ :=
      generate_family_specific_good g m f σ k hg
    simp [h]

/-- C7 witness: a concrete in-range index draw and a concrete non-failing
generation call. -/
theorem c7_witness :
    testGen.Good ∧ (0 : Nat) < 5 ∧
    (∃ i, get_rand_index 5 7 = some i ∧ i < 5) ∧
    (generate testGen idStream 0).isSome = true := by
  refine ⟨by decide, by omega, ?_, ?_⟩
  · exact (c7_no_failure testGen (by decide) idStream 0).1 5 7 (by omega)
  · exact (c7_no_failure testGen (by decide) idStream 0).2.2.2.2.1

/-- C8: two-run determinism — every operation's output is a function of its
inputs and the raw random values it actually consumes: two runs over streams
that agree on the consumed window produce identical outputs, so no hidden state
carries between calls. -/
theorem c8_two_run_determinism (g : RandomNameGenerator) (σ τ : RandStream)
    (k : Nat) :
    (∀ gender, (∀ j, j < 2 → σ (k + j) = τ (k + j)) →
      generate_specific g gender σ k = generate_specific g gender τ k) ∧
    ((∀ j, j < 3 → σ (k + j) = τ (k + j)) →
      generate g σ k = generate g τ k) ∧
    (∀ amount, (∀ j, j < 3 * amount → σ (k + j) = τ (k + j)) →
      generate_many g amount σ k = generate_many g amount τ k) ∧
    (∀ male_amount female_amount,
      (∀ j, j < 2 * (male_amount + female_amount) → σ (k + j) = τ (k + j)) →
      generate_many_specific g male_amount female_amount σ k =
        generate_many_specific g male_amount female_amount τ k) ∧
    (∀ children_amount,
      (∀ j, j < 3 + children_amount → σ (k + j) = τ (k + j)) →
      generate_family g children_amount σ k =
        generate_family g children_amount τ k) ∧
    (∀ m f, (∀ j, j < 3 + (m + f) → σ (k + j) = τ (k + j)) →
      generate_family_specific g m f σ k = generate_family_specific g m f τ k) := by
  refine ⟨?_, ?_, ?_, ?_, ?_, ?_⟩
  · intro gender h
    exact generate_specific_congr g gender σ τ k (h 0 (by omega)) (h 1 (by omega))
  · intro h
    exact generate_congr g σ τ k h
  · intro amount h
    exact generate_many_congr g amount σ τ k h
  · intro male_amount female_amount h
    exact generate_many_specific_congr g male_amount female_amount σ τ k h
  · intro children_amount h
    exact generate_family_congr g children_amount σ τ k h
  · intro m f h
    exact generate_family_specific_congr g m f σ τ k h

/-- C8 witness: two concrete streams that agree on the three consumed raw
values yield identical `generate` outputs. -/
theorem c8_witness :
    (∀ j, j < 3 → idStream (0 + j) = idStreamTail (0 + j)) ∧
    generate testGen idStream 0 = generate testGen idStreamTail 0 := by
  have hagree : ∀ j, j < 3 → idStream (0 + j) = idStreamTail (0 + j) := by
    intro j hj
    simp only [idStream, idStreamTail]
    split <;> omega
  exact ⟨hagree,
    (c8_two_run_determinism testGen idStream idStreamTail 0).2.1 hagree⟩

end NameMaker
